import Mathlib

/-!
Shallow embedding of the lactic-acidosis detection pipeline
(src/acidosis_detection.py) and verification of its specification.

Timestamps (`charttime`, `scheduletime`) and durations are modelled as
integers (an instant on a discrete timeline); laboratory measurement
values are modelled as rationals, so that the threshold comparisons
`value > 4.0` and `value <= 7.35` are exact order comparisons.
-/

namespace Acidosis

/-- A row of the lab-events table: `subject_id`, `itemid`, `charttime`
and `measure_value` (renamed from `valuenum`; never null by the fetch
query's filter). -/
structure MeasurementRecord where
  subject_id : Int
  itemid : Int
  charttime : Int
  measure_value : ℚ
  deriving Repr, DecidableEq

/-- A row of the medication table: `subject_id`, `medication` and
`scheduletime`, as selected by `fetch_vasoactive_drugs`. -/
structure MedicationRow where
  subject_id : Int
  medication : String
  scheduletime : Int
  deriving Repr, DecidableEq

/-- The abnormality test of `identify_acidosis_episodes` (source lines
154-157): `(itemid in lactate_items and value > 4.0) or
(itemid in ph_items and value <= 7.35)`.  The threshold 7.35 is the
rational 147/20. -/
def is_abnormal (itemid : Int) (value : ℚ)
    (lactate_items ph_items : List Int) : Bool :=
  (decide (itemid ∈ lactate_items) && decide ((4 : ℚ) < value))
    || (decide (itemid ∈ ph_items) && decide (value ≤ 147 / 20))

/-- The per-subject scan of `identify_acidosis_episodes` (source lines
151-166): walk the chronologically sorted records carrying the list of
episodes collected so far and the optional open-run start marker.  An
abnormal record opens a run if none is open; a normal record closes an
open run, appending `(start, end)` when `end - start >= min_duration`;
a run still open when the records run out is dropped. -/
def segmentAux (lactate_items ph_items : List Int) (min_duration : Int) :
    List MeasurementRecord → List (Int × Int) → Option Int → List (Int × Int)
  | [], episodes, _ => episodes
  | record :: rest, episodes, start =>
    if is_abnormal record.itemid record.measure_value lactate_items ph_items then
      match start with
      | none =>
        segmentAux lactate_items ph_items min_duration rest episodes
          (some record.charttime)
      | some s =>
        segmentAux lactate_items ph_items min_duration rest episodes (some s)
    else
      match start with
      | some s =>
        if min_duration ≤ record.charttime - s then
          segmentAux lactate_items ph_items min_duration rest
            (episodes ++ [(s, record.charttime)]) none
        else
          segmentAux lactate_items ph_items min_duration rest episodes none
      | none => segmentAux lactate_items ph_items min_duration rest episodes none

/-- Episode segmentation for one subject's sorted stream: the scan of
source lines 149-166 started with no episodes and no open run. -/
def segment (lactate_items ph_items : List Int) (min_duration : Int)
    (records : List MeasurementRecord) : List (Int × Int) :=
  segmentAux lactate_items ph_items min_duration records [] none

/-- Unfolding the scan step when no run is open. -/
theorem segmentAux_cons_none (lactate_items ph_items : List Int) (d : Int)
    (record : MeasurementRecord) (rest : List MeasurementRecord)
    (eps : List (Int × Int)) :
    segmentAux lactate_items ph_items d (record :: rest) eps none =
      if is_abnormal record.itemid record.measure_value lactate_items ph_items then
        segmentAux lactate_items ph_items d rest eps (some record.charttime)
      else segmentAux lactate_items ph_items d rest eps none := rfl

/-- Unfolding the scan step when a run opened at `s` is pending. -/
theorem segmentAux_cons_some (lactate_items ph_items : List Int) (d : Int)
    (record : MeasurementRecord) (rest : List MeasurementRecord)
    (eps : List (Int × Int)) (s : Int) :
    segmentAux lactate_items ph_items d (record :: rest) eps (some s) =
      if is_abnormal record.itemid record.measure_value lactate_items ph_items then
        segmentAux lactate_items ph_items d rest eps (some s)
      else
        if d ≤ record.charttime - s then
          segmentAux lactate_items ph_items d rest
            (eps ++ [(s, record.charttime)]) none
        else segmentAux lactate_items ph_items d rest eps none := rfl

/-- The medication window filter of source lines 169-172:
`subject_drugs[(scheduletime > start) & (scheduletime < end)]`. -/
def meds_in_window (subject_drugs : List MedicationRow)
    (start stop : Int) : List MedicationRow :=
  subject_drugs.filter fun a =>
    decide (start < a.scheduletime) && decide (a.scheduletime < stop)

/-- The episode loop of source lines 168-175 as a predicate: the subject
is appended (and the loop breaks) exactly when some episode's window
holds at least one administration. -/
def overlaps (episodes : List (Int × Int))
    (subject_drugs : List MedicationRow) : Bool :=
  episodes.any fun e => !(meds_in_window subject_drugs e.1 e.2).isEmpty

/-- The group keys of `bp.groupby('subject_id')` (source line 147):
the distinct subject identifiers in ascending order. -/
def groupKeys (bp : List MeasurementRecord) : List Int :=
  ((bp.map fun r => r.subject_id).toFinset).sort (· ≤ ·)

/-- The per-subject chronological sort `data.sort_values('charttime')`
(source line 148), a stable sort by `charttime`. -/
def sortByCharttime (data : List MeasurementRecord) : List MeasurementRecord :=
  data.mergeSort fun a b => decide (a.charttime ≤ b.charttime)

/-- The whole of `identify_acidosis_episodes` (source lines 130-176):
group the lab events by subject, sort each group chronologically,
segment it into episodes, and append the subject to the candidate list
when some episode strictly contains an administration time. -/
def identify_acidosis_episodes (bp : List MeasurementRecord)
    (vadrugs : List MedicationRow) (lactate_items ph_items : List Int)
    (min_duration : Int) : List Int :=
  (groupKeys bp).foldl
    (fun candidates subject_id =>
      let data := sortByCharttime (bp.filter fun r => r.subject_id = subject_id)
      let episodes := segmentAux lactate_items ph_items min_duration data [] none
      let subject_drugs := vadrugs.filter fun a => a.subject_id = subject_id
      if overlaps episodes subject_drugs then candidates ++ [subject_id]
      else candidates)
    []

/-- `evaluate_against_diagnosis` (source lines 179-203) with the query
layer factored out: `diag_rows` is the list of `subject_id` values of
the rows returned by the diagnosis query (one row per matching
diagnosis record; duplicates possible).  An empty candidate iterable
returns the empty frame; otherwise the deduplicated candidates are
left-merged with the diagnosis rows (`has_code = True` on every
diagnosis row), a missing match filled with `False`. -/
def evaluate_against_diagnosis (subjects : List Int)
    (diag_rows : List Int) : List (Int × Bool) :=
  if subjects = [] then []
  else
    (subjects.dedup).flatMap fun s =>
      if (diag_rows.filter fun d => decide (d = s)).isEmpty then [(s, false)]
      else (diag_rows.filter fun d => decide (d = s)).map fun _ => (s, true)

/-- `run_query` (source lines 32-58): the module-level `bigquery`
binding is `none` when the client library is unavailable, in which case
a `RuntimeError` is raised; otherwise the client executes the query and
the resulting frame is returned.  The client is modelled as the
function taking the query string to its result frame. -/
def run_query (bigquery_available : Bool)
    (client : String → List (List String)) (query : String) :
    Except String (List (List String)) :=
  if bigquery_available = false then
    Except.error "google-cloud-bigquery is not installed"
  else
    Except.ok (client query)

/-- The summary percentage of `main` (source line 234):
`(num_with_code / total_subjects) * 100 if total_subjects > 0 else 0.0`. -/
def summary_accuracy (num_with_code : ℚ) (total_subjects : Nat) : ℚ :=
  if total_subjects > 0 then (num_with_code / total_subjects) * 100 else 0

/-- C3: a measurement is abnormal iff it is a lactate item with value
above 4.0 or a pH item with value at most 7.35; an item in neither
reference set is never abnormal. -/
theorem c3_is_abnormal_characterisation (itemid : Int) (value : ℚ)
    (lactate_items ph_items : List Int) :
    (is_abnormal itemid value lactate_items ph_items = true ↔
      (itemid ∈ lactate_items ∧ 4 < value) ∨
        (itemid ∈ ph_items ∧ value ≤ 147 / 20)) ∧
      (itemid ∉ lactate_items → itemid ∉ ph_items →
        is_abnormal itemid value lactate_items ph_items = false) := by
  constructor
  · simp [is_abnormal]
  · intro h1 h2
    simp [is_abnormal, h1, h2]

/-- Witness for C3 at a concrete non-member item. -/
theorem c3_witness :
    is_abnormal 9 5 [1] [2] = false :=
  (c3_is_abnormal_characterisation 9 5 [1] [2]).2 (by decide) (by decide)

/-- Any episode produced by the scan either was already in the
accumulator, or lasts at least `min_duration` and ends at the
`charttime` of a normal record of the remaining stream. -/
theorem mem_segmentAux (lactate_items ph_items : List Int) (d : Int) :
    ∀ (recs : List MeasurementRecord) (eps : List (Int × Int))
      (st : Option Int) (e : Int × Int),
      e ∈ segmentAux lactate_items ph_items d recs eps st →
      e ∈ eps ∨
        (d ≤ e.2 - e.1 ∧ ∃ r ∈ recs,
          is_abnormal r.itemid r.measure_value lactate_items ph_items = false ∧
            e.2 = r.charttime) := by
  intro recs
  induction recs with
  | nil =>
    intro eps st e h
    exact Or.inl h
  | cons record rest ih =>
    intro eps st e h
    by_cases hab :
        is_abnormal record.itemid record.measure_value lactate_items ph_items = true
    · cases st with
      | none =>
        rw [segmentAux_cons_none, if_pos hab] at h
        rcases ih eps (some record.charttime) e h with h1 | ⟨h2, r, hr, hrab, hre⟩
        · exact Or.inl h1
        · exact Or.inr ⟨h2, r, List.mem_cons_of_mem _ hr, hrab, hre⟩
      | some s =>
        rw [segmentAux_cons_some, if_pos hab] at h
        rcases ih eps (some s) e h with h1 | ⟨h2, r, hr, hrab, hre⟩
        · exact Or.inl h1
        · exact Or.inr ⟨h2, r, List.mem_cons_of_mem _ hr, hrab, hre⟩
    · rw [Bool.not_eq_true] at hab
      cases st with
      | none =>
        rw [segmentAux_cons_none, hab, if_neg (by simp)] at h
        rcases ih eps none e h with h1 | ⟨h2, r, hr, hrab, hre⟩
        · exact Or.inl h1
        · exact Or.inr ⟨h2, r, List.mem_cons_of_mem _ hr, hrab, hre⟩
      | some s =>
        rw [segmentAux_cons_some, hab, if_neg (by simp)] at h
        by_cases hd : d ≤ record.charttime - s
        · rw [if_pos hd] at h
          rcases ih (eps ++ [(s, record.charttime)]) none e h with
            h1 | ⟨h2, r, hr, hrab, hre⟩
          · rcases List.mem_append.mp h1 with h1a | h1b
            · exact Or.inl h1a
            · rcases List.mem_singleton.mp h1b with rfl
              exact Or.inr ⟨hd, record, List.mem_cons_self _ _, hab, rfl⟩
          · exact Or.inr ⟨h2, r, List.mem_cons_of_mem _ hr, hrab, hre⟩
        · rw [if_neg hd] at h
          rcases ih eps none e h with h1 | ⟨h2, r, hr, hrab, hre⟩
          · exact Or.inl h1
          · exact Or.inr ⟨h2, r, List.mem_cons_of_mem _ hr, hrab, hre⟩

/-- C1: every episode emitted by the segmentation lasts at least
`min_duration`, and every episode ends at a normal record observed in
the stream, so a run still abnormal at the end of the stream never
yields an episode. -/
theorem c1_no_short_or_open_episode (lactate_items ph_items : List Int)
    (min_duration : Int) (records : List MeasurementRecord) (e : Int × Int)
    (he : e ∈ segment lactate_items ph_items min_duration records) :
    min_duration ≤ e.2 - e.1 ∧
      ∃ r ∈ records,
        is_abnormal r.itemid r.measure_value lactate_items ph_items = false ∧
          e.2 = r.charttime := by
  rcases mem_segmentAux lactate_items ph_items min_duration records [] none e he with
    h | h
  · exact absurd h (List.not_mem_nil e)
  · exact h

/-- Witness for C1 on a two-record stream producing one episode. -/
theorem c1_witness :
    ((0 : Int), (130 : Int)) ∈ segment [1] [] 120
        [⟨1, 1, 0, 5⟩, ⟨1, 1, 130, 2⟩] ∧
      ((120 : Int) ≤ ((0 : Int), (130 : Int)).2 - ((0 : Int), (130 : Int)).1 ∧
        ∃ r ∈ [(⟨1, 1, 0, 5⟩ : MeasurementRecord), ⟨1, 1, 130, 2⟩],
          is_abnormal r.itemid r.measure_value [1] [] = false ∧
            ((0 : Int), (130 : Int)).2 = r.charttime) :=
  ⟨by decide,
    c1_no_short_or_open_episode [1] [] 120
      [⟨1, 1, 0, 5⟩, ⟨1, 1, 130, 2⟩] (0, 130) (by decide)⟩

/-- C2: the medication-overlap filter flags exactly when some
administration falls strictly inside some episode, and flags nothing
when every administration sits at or outside every episode boundary. -/
theorem c2_overlap_characterisation (episodes : List (Int × Int))
    (subject_drugs : List MedicationRow) :
    (overlaps episodes subject_drugs = true ↔
      ∃ e ∈ episodes, ∃ a ∈ subject_drugs,
        e.1 < a.scheduletime ∧ a.scheduletime < e.2) ∧
      ((∀ a ∈ subject_drugs, ∀ e ∈ episodes,
          a.scheduletime ≤ e.1 ∨ e.2 ≤ a.scheduletime) →
        overlaps episodes subject_drugs = false) := by
  have hiff : overlaps episodes subject_drugs = true ↔
      ∃ e ∈ episodes, ∃ a ∈ subject_drugs,
        e.1 < a.scheduletime ∧ a.scheduletime < e.2 := by
    simp [overlaps, meds_in_window, List.any_eq_true]
  refine ⟨hiff, fun hbound => ?_⟩
  cases hov : overlaps episodes subject_drugs with
  | false => rfl
  | true =>
    exfalso
    rcases hiff.mp hov with ⟨e, he, a, ha, h1, h2⟩
    rcases hbound a ha e he with h | h <;> omega

/-- Witness for C2: an administration before the episode start does not
flag. -/
theorem c2_witness :
    overlaps [(600, 780)] [⟨1, "dopamine", 540⟩] = false :=
  (c2_overlap_characterisation [(600, 780)] [⟨1, "dopamine", 540⟩]).2
    (by decide)

/-- C6: an empty candidate set yields the empty result frame, whatever
the diagnosis rows hold. -/
theorem c6_empty_candidates (diag_rows : List Int) :
    evaluate_against_diagnosis [] diag_rows = [] := by
  simp [evaluate_against_diagnosis]

/-- C7: `run_query` returns the distinct unavailable-dependency error
exactly when the client library is missing, and otherwise executes the
query through the client. -/
theorem c7_run_query (bigquery_available : Bool)
    (client : String → List (List String)) (query : String) :
    ((∃ msg, run_query bigquery_available client query = Except.error msg) ↔
        bigquery_available = false) ∧
      (bigquery_available = true →
        run_query bigquery_available client query = Except.ok (client query)) := by
  cases bigquery_available <;> simp [run_query]

/-- Witness for C7 with an available client. -/
theorem c7_witness :
    run_query true (fun _ => [["row"]]) "SELECT 1" = Except.ok [["row"]] :=
  (c7_run_query true (fun _ => [["row"]]) "SELECT 1").2 rfl

/-- C8: the summary percentage is 0.0 when no subject was flagged, and
the division form is used only on a positive total. -/
theorem c8_guarded_percentage (num_with_code : ℚ) :
    summary_accuracy num_with_code 0 = 0 ∧
      ∀ total_subjects : Nat, 0 < total_subjects →
        summary_accuracy num_with_code total_subjects =
          (num_with_code / total_subjects) * 100 := by
  constructor
  · simp [summary_accuracy]
  · intro t ht
    simp [summary_accuracy, ht]

/-- Witness for C8 at totals 0 and 2. -/
theorem c8_witness :
    summary_accuracy 50 0 = 0 ∧ summary_accuracy 50 2 = (50 / 2) * 100 :=
  ⟨(c8_guarded_percentage 50).1, (c8_guarded_percentage 50).2 2 (by decide)⟩

/-- C9: an item listed in both reference sets is abnormal at every
value, and a record of such an item never closes a run: the scan step
leaves the collected episodes unchanged and keeps (or opens) the run. -/
theorem c9_both_sets_always_abnormal (lactate_items ph_items : List Int)
    (d : Int) (r : MeasurementRecord) (rest : List MeasurementRecord)
    (eps : List (Int × Int)) (st : Option Int)
    (h1 : r.itemid ∈ lactate_items) (h2 : r.itemid ∈ ph_items) :
    (∀ v : ℚ, is_abnormal r.itemid v lactate_items ph_items = true) ∧
      segmentAux lactate_items ph_items d (r :: rest) eps st =
        segmentAux lactate_items ph_items d rest eps
          (some (st.getD r.charttime)) := by
  have habn : ∀ v : ℚ, is_abnormal r.itemid v lactate_items ph_items = true := by
    intro v
    simp only [is_abnormal, Bool.or_eq_true, Bool.and_eq_true, decide_eq_true_eq]
    rcases lt_or_le 4 v with hv | hv
    · exact Or.inl ⟨h1, hv⟩
    · exact Or.inr ⟨h2, hv.trans (by norm_num)⟩
  refine ⟨habn, ?_⟩
  cases st with
  | none => rw [segmentAux_cons_none, if_pos (habn r.measure_value)]; rfl
  | some s => rw [segmentAux_cons_some, if_pos (habn r.measure_value)]; rfl

/-- Witness for C9 at an item in both sets. -/
theorem c9_witness :
    (∀ v : ℚ, is_abnormal 1 v [1] [1] = true) ∧
      segmentAux [1] [1] 120 [⟨1, 1, 50, 6⟩] [] none =
        segmentAux [1] [1] 120 [] [] (some 50) :=
  c9_both_sets_always_abnormal [1] [1] 120 ⟨1, 1, 50, 6⟩ [] [] none
    (by decide) (by decide)

/-- Order invariant of the scan: starting from an accumulator whose
episodes are end-before-start ordered and all bounded by the pending
run start and by every remaining record of the sorted stream, the
output keeps that order, and every episode's start is at most its
end. -/
theorem segmentAux_order (lactate_items ph_items : List Int) (d : Int) :
    ∀ (recs : List MeasurementRecord) (eps : List (Int × Int)) (st : Option Int),
      List.Pairwise (fun a b : MeasurementRecord => a.charttime ≤ b.charttime) recs →
      List.Chain' (fun e1 e2 : Int × Int => e1.2 ≤ e2.1) eps →
      (∀ r ∈ recs, ∀ e ∈ eps, e.2 ≤ r.charttime) →
      (∀ s, st = some s → ∀ e ∈ eps, e.2 ≤ s) →
      (∀ s, st = some s → ∀ r ∈ recs, s ≤ r.charttime) →
      (∀ e ∈ eps, e.1 ≤ e.2) →
      List.Chain' (fun e1 e2 : Int × Int => e1.2 ≤ e2.1)
          (segmentAux lactate_items ph_items d recs eps st) ∧
        ∀ e ∈ segmentAux lactate_items ph_items d recs eps st, e.1 ≤ e.2 := by
  intro recs
  induction recs with
  | nil =>
    intro eps st _ hch _ _ _ hse
    exact ⟨hch, hse⟩
  | cons record rest ih =>
    intro eps st hpw hch H2 H3 H4 H5
    rcases List.pairwise_cons.mp hpw with ⟨hhead, htail⟩
    by_cases hab :
        is_abnormal record.itemid record.measure_value lactate_items ph_items = true
    · cases st with
      | none =>
        rw [segmentAux_cons_none, if_pos hab]
        refine ih eps (some record.charttime) htail hch ?_ ?_ ?_ H5
        · exact fun r hr e he => H2 r (List.mem_cons_of_mem _ hr) e he
        · intro s hs e he
          cases Option.some.inj hs
          exact H2 record (List.mem_cons_self _ _) e he
        · intro s hs r hr
          cases Option.some.inj hs
          exact hhead r hr
      | some s =>
        rw [segmentAux_cons_some, if_pos hab]
        refine ih eps (some s) htail hch ?_ ?_ ?_ H5
        · exact fun r hr e he => H2 r (List.mem_cons_of_mem _ hr) e he
        · intro s' hs' e he
          cases Option.some.inj hs'
          exact H3 s rfl e he
        · intro s' hs' r hr
          cases Option.some.inj hs'
          exact H4 s rfl r (List.mem_cons_of_mem _ hr)
    · rw [Bool.not_eq_true] at hab
      cases st with
      | none =>
        rw [segmentAux_cons_none, if_neg (by simp [hab])]
        refine ih eps none htail hch ?_ ?_ ?_ H5
        · exact fun r hr e he => H2 r (List.mem_cons_of_mem _ hr) e he
        · exact fun s hs => nomatch hs
        · exact fun s hs => nomatch hs
      | some s =>
        rw [segmentAux_cons_some, if_neg (by simp [hab])]
        by_cases hd : d ≤ record.charttime - s
        · rw [if_pos hd]
          refine ih (eps ++ [(s, record.charttime)]) none htail ?_ ?_ ?_ ?_ ?_
          · refine List.chain'_append.mpr ⟨hch, List.chain'_singleton _, ?_⟩
            intro x hx y hy
            have hxmem : x ∈ eps := List.mem_of_mem_getLast? hx
            have hy' : (s, record.charttime) = y := by simpa using hy
            subst hy'
            exact H3 s rfl x hxmem
          · intro r hr e he
            rcases List.mem_append.mp he with h1 | h1
            · exact H2 r (List.mem_cons_of_mem _ hr) e h1
            · rcases List.mem_singleton.mp h1 with rfl
              exact hhead r hr
          · exact fun s' hs' => nomatch hs'
          · exact fun s' hs' => nomatch hs'
          · intro e he
            rcases List.mem_append.mp he with h1 | h1
            · exact H5 e h1
            · rcases List.mem_singleton.mp h1 with rfl
              exact H4 s rfl record (List.mem_cons_self _ _)
        · rw [if_neg hd]
          refine ih eps none htail hch ?_ ?_ ?_ H5
          · exact fun r hr e he => H2 r (List.mem_cons_of_mem _ hr) e he
          · exact fun s' hs' => nomatch hs'
          · exact fun s' hs' => nomatch hs'

/-- C4 counterexample: with a tied timestamp (a normal reading and the
next run's opening abnormal reading at the same instant) two retained
episodes share a boundary, so the strict precedence the claim states
fails on this chronologically sorted stream. -/
theorem c4_counterexample :
    List.Pairwise (fun a b : MeasurementRecord => a.charttime ≤ b.charttime)
        [⟨1, 1, 0, 5⟩, ⟨1, 1, 120, 2⟩, ⟨1, 1, 120, 5⟩, ⟨1, 1, 300, 2⟩] ∧
      ¬ List.Chain' (fun e1 e2 : Int × Int => e1.2 < e2.1)
          (segment [1] [] 120
            [⟨1, 1, 0, 5⟩, ⟨1, 1, 120, 2⟩, ⟨1, 1, 120, 5⟩, ⟨1, 1, 300, 2⟩]) := by
  constructor
  · decide
  · have h : segment [1] [] 120
        [⟨1, 1, 0, 5⟩, ⟨1, 1, 120, 2⟩, ⟨1, 1, 120, 5⟩, ⟨1, 1, 300, 2⟩] =
        [(0, 120), (120, 300)] := by decide
    rw [h]
    simp [List.chain'_cons]

/-- C4 amended: on a chronologically sorted stream the episodes are
time-ordered and non-overlapping, each episode's end at or before the
next episode's start (equality possible at tied timestamps), and each
episode's start at most its end. -/
theorem c4_episode_order (lactate_items ph_items : List Int)
    (min_duration : Int) (records : List MeasurementRecord)
    (hsorted : List.Pairwise
      (fun a b : MeasurementRecord => a.charttime ≤ b.charttime) records) :
    List.Chain' (fun e1 e2 : Int × Int => e1.2 ≤ e2.1)
        (segment lactate_items ph_items min_duration records) ∧
      ∀ e ∈ segment lactate_items ph_items min_duration records, e.1 ≤ e.2 :=
  segmentAux_order lactate_items ph_items min_duration records [] none hsorted
    List.chain'_nil
    (fun _ _ e he => absurd he (List.not_mem_nil e))
    (fun _ hs => nomatch hs)
    (fun _ hs => nomatch hs)
    (fun e he => absurd he (List.not_mem_nil e))

/-- Witness for C4 on the tied-timestamp stream. -/
theorem c4_witness :
    List.Chain' (fun e1 e2 : Int × Int => e1.2 ≤ e2.1)
        (segment [1] [] 120
          [⟨1, 1, 0, 5⟩, ⟨1, 1, 120, 2⟩, ⟨1, 1, 120, 5⟩, ⟨1, 1, 300, 2⟩]) ∧
      ∀ e ∈ segment [1] [] 120
          [⟨1, 1, 0, 5⟩, ⟨1, 1, 120, 2⟩, ⟨1, 1, 120, 5⟩, ⟨1, 1, 300, 2⟩],
        e.1 ≤ e.2 :=
  c4_episode_order [1] [] 120
    [⟨1, 1, 0, 5⟩, ⟨1, 1, 120, 2⟩, ⟨1, 1, 120, 5⟩, ⟨1, 1, 300, 2⟩] (by decide)

/-- A fold that appends the key when a test passes is the filter of the
keys by the test. -/
theorem foldl_select_eq_filter {α : Type} (p : α → Bool) :
    ∀ (keys : List α) (acc : List α),
      List.foldl (fun c k => if p k then c ++ [k] else c) acc keys =
        acc ++ keys.filter p := by
  intro keys
  induction keys with
  | nil => intro acc; simp
  | cons a t ih =>
    intro acc
    by_cases h : p a
    · simp [List.foldl_cons, h, ih, List.filter_cons]
    · simp [List.foldl_cons, h, ih, List.filter_cons]

/-- The candidate loop of `identify_acidosis_episodes` filters the
ascending distinct subject keys by the per-subject overlap test. -/
theorem identify_eq_filter (bp : List MeasurementRecord)
    (vadrugs : List MedicationRow) (lactate_items ph_items : List Int)
    (min_duration : Int) :
    identify_acidosis_episodes bp vadrugs lactate_items ph_items min_duration =
      (groupKeys bp).filter fun subject_id =>
        overlaps
          (segmentAux lactate_items ph_items min_duration
            (sortByCharttime (bp.filter fun r => r.subject_id = subject_id))
            [] none)
          (vadrugs.filter fun a => a.subject_id = subject_id) := by
  have h := foldl_select_eq_filter
    (fun subject_id =>
      overlaps
        (segmentAux lactate_items ph_items min_duration
          (sortByCharttime (bp.filter fun r => r.subject_id = subject_id))
          [] none)
        (vadrugs.filter fun a => a.subject_id = subject_id))
    (groupKeys bp) []
  simpa [identify_acidosis_episodes] using h

/-- Filtering a duplicate-free list for equality with `s` gives `[s]`
when `s` is present and `[]` otherwise. -/
theorem nodup_filter_eq_singleton (s : Int) :
    ∀ l : List Int, l.Nodup →
      (l.filter fun d => decide (d = s)) = if s ∈ l then [s] else [] := by
  intro l
  induction l with
  | nil => intro _; simp
  | cons a t ih =>
    intro hnd
    rcases List.nodup_cons.mp hnd with ⟨hna, hnt⟩
    by_cases ha : a = s
    · subst ha
      simp [List.filter_cons, ih hnt, hna]
    · have ha' : ¬ s = a := fun h => ha h.symm
      by_cases hst : s ∈ t <;>
        simp [List.filter_cons, ha, ha', ih hnt, hst]

/-- The merged frame row for one candidate: one `false` row on no
match, one `true` row per matching lookup row; with a duplicate-free
lookup this is the single membership row. -/
theorem evaluate_row_of_nodup (diag_rows : List Int) (hnd : diag_rows.Nodup)
    (s : Int) :
    (if (diag_rows.filter fun d => decide (d = s)).isEmpty then [(s, false)]
      else (diag_rows.filter fun d => decide (d = s)).map fun _ => (s, true)) =
      [(s, decide (s ∈ diag_rows))] := by
  rw [nodup_filter_eq_singleton s diag_rows hnd]
  by_cases hs : s ∈ diag_rows <;> simp [hs]

/-- C5 amended: for a non-empty candidate list and a lookup listing
each subject at most once, the evaluation returns exactly the
deduplicated candidates, each paired with its lookup membership. -/
theorem c5_one_row_per_candidate (subjects diag_rows : List Int)
    (hne : subjects ≠ []) (hnd : diag_rows.Nodup) :
    evaluate_against_diagnosis subjects diag_rows =
      subjects.dedup.map fun s => (s, decide (s ∈ diag_rows)) := by
  rw [evaluate_against_diagnosis, if_neg hne]
  generalize subjects.dedup = l
  induction l with
  | nil => rfl
  | cons a t ih =>
    rw [List.flatMap_cons, List.map_cons, ih]
    have h := evaluate_row_of_nodup diag_rows hnd a
    simp only at h
    rw [h]
    rfl

/-- C5 counterexample: a lookup holding subject 7 twice makes the
left-merge emit two rows for the single candidate 7, so the output is
not one row per deduplicated candidate. -/
theorem c5_counterexample :
    evaluate_against_diagnosis [7] [7, 7] = [(7, true), (7, true)] ∧
      ¬ ((evaluate_against_diagnosis [7] [7, 7]).map Prod.fst).Nodup ∧
      (evaluate_against_diagnosis [7] [7, 7]).length ≠
        ([7] : List Int).dedup.length := by
  refine ⟨by decide, by decide, by decide⟩

/-- Witness for C5 on three candidates and a singleton lookup. -/
theorem c5_witness :
    evaluate_against_diagnosis [1, 2, 3] [1] =
      [(1, true), (2, false), (3, false)] := by
  rw [c5_one_row_per_candidate [1, 2, 3] [1] (by decide) (by decide)]
  decide

/-- C10: the candidate list holds each subject at most once, in
ascending order. -/
theorem c10_candidates_nodup_sorted (bp : List MeasurementRecord)
    (vadrugs : List MedicationRow) (lactate_items ph_items : List Int)
    (min_duration : Int) :
    (identify_acidosis_episodes bp vadrugs lactate_items ph_items
        min_duration).Nodup ∧
      List.Sorted (· < ·)
        (identify_acidosis_episodes bp vadrugs lactate_items ph_items
          min_duration) := by
  rw [identify_eq_filter]
  constructor
  · exact (Finset.sort_nodup _ _).filter _
  · exact List.Pairwise.sublist (List.filter_sublist _) (Finset.sort_sorted_lt _)

end Acidosis
